import Mathlib

set_option maxHeartbeats 1000000

/-!
Verification development for the RD CRM dashboard core (`app.py`):
cursor pagination (`fetch_all_deals`), schema normalization (`load_data`)
and the view engine (`update_views`).

JSON payloads are modelled by the inductive `JVal`; pandas data frames by
`DataFrame` (a column-name list plus row-major cells); the pandas library
primitives used by the source (`json_normalize`, `rename`, `to_datetime`,
`to_numeric`, `isin`, `dropna`, `groupby(...).size()`, `sum`) are modelled
by executable Lean functions on this representation, each documented at
its definition.
-/

/-- An exact decimal number `m / 10^s`: the value space of JSON numbers
and of the amounts this dashboard sums (binary floating-point rounding is
not modelled; no behaviour verified here depends on it). -/
structure Dec where
  m : Int
  s : Nat := 0
deriving Repr, DecidableEq, Inhabited

/-- Exact addition of decimals (the scale becomes the larger of the two). -/
def Dec.add (a b : Dec) : Dec :=
  if a.s ≤ b.s then ⟨a.m * ((10 : Int) ^ (b.s - a.s)) + b.m, b.s⟩
  else ⟨a.m + b.m * ((10 : Int) ^ (a.s - b.s)), a.s⟩

/-- JSON values as returned by the CRM API. -/
inductive JVal where
  | jnull
  | jbool (b : Bool)
  | jnum (q : Dec)
  | jstr (s : String)
  | jlist (xs : List JVal)
  | jobj (fields : List (String × JVal))
deriving Repr, Inhabited

/-- An integer-valued JSON number. -/
def jint (n : Int) : JVal := .jnum ⟨n, 0⟩

/-- Python truthiness of a JSON value (`bool(x)`): `None`, `False`, `0`,
`""`, `[]` and `{}` are falsy. -/
def truthy : JVal → Bool
  | .jnull => false
  | .jbool b => b
  | .jnum q => !(q.m == 0)
  | .jstr s => s != ""
  | .jlist xs => !xs.isEmpty
  | .jobj fs => !fs.isEmpty

/-- Python `dict.get(k)`: the binding of `k`, `None` (here `jnull`) when the
key is absent. -/
def objGet (fs : List (String × JVal)) (k : String) : JVal :=
  match fs with
  | [] => .jnull
  | (k', v) :: rest => if k' = k then v else objGet rest k

/-- Python `a or b`: `a` when truthy, else `b`. -/
def pyOr (a b : JVal) : JVal := if truthy a then a else b

/-- `isinstance(v, list)`. -/
def JVal.isList : JVal → Bool
  | .jlist _ => true
  | _ => false

/-- The list carried by a `jlist`, `[]` otherwise. -/
def JVal.asList : JVal → List JVal
  | .jlist xs => xs
  | _ => []

/-- `app.py` lines 37-46: from one page response (an object `data`),
`deals_page = data.get("deals") or data.get("items") or data`; if the
result is a dict, its first list-valued member replaces it; if the result
is not a list the page contributes no records.  (A page payload that is
itself a list is not representable here: in the source `data.get` would
raise `AttributeError` on a list, so only object payloads reach this
logic.) -/
def extractPage (data : List (String × JVal)) : List JVal :=
  let p0 := pyOr (objGet data "deals") (pyOr (objGet data "items") (.jobj data))
  let p1 := match p0 with
    | .jobj fs =>
      match fs.find? (fun kv : String × JVal => kv.2.isList) with
      | some kv => kv.2
      | none => .jobj fs
    | v => v
  match p1 with
  | .jlist xs => xs
  | _ => []

/-- Declarative restatement of the page-extraction rule actually
implemented: the chosen value is the first *truthy* one among the `deals`
value, the `items` value and the whole payload object; a chosen object is
replaced by its first list-valued member; a non-list outcome contributes
zero records. -/
def pageRecords (data : List (String × JVal)) : List JVal :=
  let chosen :=
    if truthy (objGet data "deals") then objGet data "deals"
    else if truthy (objGet data "items") then objGet data "items"
    else .jobj data
  match chosen with
  | .jlist xs => xs
  | .jobj fs =>
    match fs.find? (fun kv : String × JVal => kv.2.isList) with
    | some kv => kv.2.asList
    | none => []
  | _ => []

/-- The page-extraction rule as claim C1 words it: presence-based key
precedence — the value under a `deals` key if the key is present, else the
value under an `items` key if present, else the first list-valued member
of the payload object; a located non-list value yields zero records. -/
def claimC1locate (data : List (String × JVal)) : List JVal :=
  match data.find? (fun kv : String × JVal => kv.1 == "deals") with
  | some kv => kv.2.asList
  | none =>
    match data.find? (fun kv : String × JVal => kv.1 == "items") with
    | some kv => kv.2.asList
    | none =>
      match data.find? (fun kv : String × JVal => kv.2.isList) with
      | some kv => kv.2.asList
      | none => []

/-- `app.py` lines 27-54 (`fetch_all_deals`): the while-loop, driven by a
synthetic sequence of successive page responses (the source fetches each
page over HTTP using the cursor; the cursor bookkeeping does not affect
which records are accumulated).  Each iteration appends the page's
records; the loop continues only when `bool(data.get("has_more"))` and
`data.get("next_page")` are both truthy. -/
def fetch_all_deals : List (List (String × JVal)) → List JVal
  | [] => []
  | page :: rest =>
    let recs := extractPage page
    if truthy (objGet page "has_more") && truthy (objGet page "next_page") then
      recs ++ fetch_all_deals rest
    else
      recs

/-- A pandas timestamp: wall-clock fields plus an optional UTC offset in
minutes (`some off` = timezone-aware, `none` = naive). -/
structure Timestamp where
  year : Nat
  month : Nat
  day : Nat
  hour : Nat := 0
  minute : Nat := 0
  second : Nat := 0
  tz : Option Int := none
deriving Repr, DecidableEq, Inhabited

def natOfDigits (cs : List Char) : Nat :=
  cs.foldl (fun a c => a * 10 + (c.toNat - 48)) 0

/-- Exactly `n` leading digits, as a number, plus the remaining input. -/
def takeDigits (n : Nat) (cs : List Char) : Option (Nat × List Char) :=
  let ds := cs.take n
  if ds.length == n && ds.all Char.isDigit then some (natOfDigits ds, cs.drop n) else none

def expectChar (c : Char) : List Char → Option (List Char)
  | [] => none
  | c' :: rest => if c' = c then some rest else none

/-- Parse `YYYY-MM-DD` with range checks, returning the remaining input. -/
def parseYMD (cs : List Char) : Option ((Nat × Nat × Nat) × List Char) :=
  match takeDigits 4 cs with
  | none => none
  | some (y, a) =>
    match expectChar '-' a with
    | none => none
    | some b =>
      match takeDigits 2 b with
      | none => none
      | some (mo, c) =>
        match expectChar '-' c with
        | none => none
        | some d0 =>
          match takeDigits 2 d0 with
          | none => none
          | some (d, e) =>
            if 1 ≤ mo ∧ mo ≤ 12 ∧ 1 ≤ d ∧ d ≤ 31 then some ((y, mo, d), e) else none

/-- Parse `HH:MM:SS` with range checks, returning the remaining input. -/
def parseHMS (cs : List Char) : Option ((Nat × Nat × Nat) × List Char) :=
  match takeDigits 2 cs with
  | none => none
  | some (h, a) =>
    match expectChar ':' a with
    | none => none
    | some b =>
      match takeDigits 2 b with
      | none => none
      | some (mi, c) =>
        match expectChar ':' c with
        | none => none
        | some d0 =>
          match takeDigits 2 d0 with
          | none => none
          | some (se, e) =>
            if h < 24 ∧ mi < 60 ∧ se < 60 then some ((h, mi, se), e) else none

/-- Parse the trailing timezone designator: nothing (naive), `Z` (UTC), or
`+HH:MM` / `-HH:MM` (offset in minutes). -/
def parseTzTail (cs : List Char) : Option (Option Int) :=
  match cs with
  | [] => some none
  | ['Z'] => some (some 0)
  | sign :: rest =>
    if sign = '+' ∨ sign = '-' then
      match takeDigits 2 rest with
      | none => none
      | some (oh, r1) =>
        match expectChar ':' r1 with
        | none => none
        | some r2 =>
          match takeDigits 2 r2 with
          | none => none
          | some (om, r3) =>
            if r3.isEmpty ∧ oh < 24 ∧ om < 60 then
              let off : Int := ((oh * 60 + om : Nat) : Int)
              some (some (if sign = '+' then off else -off))
            else none
    else none

/-- Model of the pandas timestamp parser (`pd.to_datetime` applied to one
string) on the ISO-8601 subset `YYYY-MM-DD[( |T)HH:MM:SS[Z|+HH:MM|-HH:MM]]`;
every other string is unparseable and coerces to `NaT`. -/
def parseTimestamp (s : String) : Option Timestamp :=
  match parseYMD s.toList with
  | none => none
  | some ((y, mo, d), rest) =>
    match rest with
    | [] => some ⟨y, mo, d, 0, 0, 0, none⟩
    | sep :: rest2 =>
      if sep = 'T' ∨ sep = ' ' then
        match parseHMS rest2 with
        | none => none
        | some ((h, mi, se), rest3) =>
          match parseTzTail rest3 with
          | none => none
          | some tz => some ⟨y, mo, d, h, mi, se, tz⟩
      else none

/-- Model of the `pd.to_numeric` string parser: optional minus sign,
digits, optional decimal fraction. -/
def parseDecNum (s : String) : Option Dec :=
  let cs := s.toList
  let (neg, cs1) := match cs with
    | '-' :: rest => (true, rest)
    | _ => (false, cs)
  let ds := cs1.takeWhile Char.isDigit
  let rest := cs1.drop ds.length
  if ds.isEmpty then none
  else
    let sgn : Int → Int := fun n => if neg then -n else n
    match rest with
    | [] => some ⟨sgn (natOfDigits ds : Nat), 0⟩
    | '.' :: fs =>
      if !fs.isEmpty && fs.all Char.isDigit then
        some ⟨sgn ((natOfDigits ds : Nat) * (10 : Int) ^ fs.length + (natOfDigits fs : Nat)),
              fs.length⟩
      else none
    | _ => none

/-- One data-frame cell: missing (`NaN`/`NaT`/`None`), a raw JSON value, a
timestamp, or a number. -/
inductive Cell where
  | nan
  | jval (v : JVal)
  | ts (t : Timestamp)
  | num (q : Dec)
deriving Repr, Inhabited

/-- A pandas data frame: column names (duplicates are possible after
`rename`) and row-major cells. -/
structure DataFrame where
  cols : List String
  rows : List (List Cell)
deriving Repr, Inhabited

mutual
/-- Flattening of one field value under key `k`: nested objects contribute
their flattened fields under `k__`-prefixed keys; lists and scalars are
kept whole. -/
def flattenOne : String → JVal → List (String × JVal)
  | k, .jobj gs => (flattenFields gs).map (fun p => (k ++ "__" ++ p.1, p.2))
  | k, v => [(k, v)]

/-- Model of `pd.json_normalize(..., sep="__")` on one record. -/
def flattenFields : List (String × JVal) → List (String × JVal)
  | [] => []
  | (k, v) :: rest => flattenOne k v ++ flattenFields rest
end

/-- First binding of key `k` in a flattened record. -/
def lookupV (fs : List (String × JVal)) (k : String) : Option JVal :=
  match fs with
  | [] => none
  | (k', v) :: rest => if k' = k then some v else lookupV rest k

/-- `pd.json_normalize(deals, sep="__")` (line 62): columns are the
flattened keys in order of first appearance across the records; each row
holds the record's value for the column, `NaN` when absent. -/
def jsonNormalize (recs : List (List (String × JVal))) : DataFrame :=
  let flats := recs.map flattenFields
  let cols := flats.foldl
    (fun acc r => r.foldl (fun a kv => if a.contains kv.1 then a else a ++ [kv.1]) acc) []
  ⟨cols, flats.map (fun fr => cols.map (fun c =>
    match lookupV fr c with
    | some v => Cell.jval v
    | none => Cell.nan))⟩

/-- The `rename_map` literal of lines 66-76, in source insertion order. -/
def initialRenameMap : List (String × String) :=
  [("id", "id"), ("name", "nome"), ("status", "status"), ("stage", "etapa"),
   ("amount", "valor"), ("value", "valor"), ("closed_at", "closed_at"),
   ("prediction_date", "prediction_date"), ("created_at", "created_at")]

/-- Python dict assignment `d[k] = v`: update in place, append when new. -/
def dictSet (d : List (String × String)) (k v : String) : List (String × String) :=
  if d.any (fun kv => kv.1 == k) then
    d.map (fun kv => if kv.1 == k then (k, v) else kv)
  else d ++ [(k, v)]

/-- Python `d.pop(k, None)`. -/
def dictPop (d : List (String × String)) (k : String) : List (String × String) :=
  d.filter (fun kv => kv.1 != k)

/-- Left-to-right scan of Python `s.split("__")`, keeping only the last
chunk (`cur` is the reversed chunk being built). -/
def lastSegGo (cur : List Char) : List Char → List Char
  | [] => cur.reverse
  | '_' :: '_' :: rest => lastSegGo [] rest
  | c :: rest => lastSegGo (c :: cur) rest

/-- `c.split("__")[-1]`. -/
def lastSeg (c : String) : String :=
  String.mk (lastSegGo [] c.toList)

/-- `c.endswith(k)`. -/
def strEndsWith (c k : String) : Bool :=
  List.isSuffixOf k.toList c.toList

/-- Line 80: the columns matching the target key `k`,
`c.endswith(k) or c.split("__")[-1] == k`. -/
def altCols (cols : List String) (k : String) : List String :=
  cols.filter (fun c => strEndsWith c k || lastSeg c == k)

/-- Lines 77-83: iterate over the original `rename_map` items; for each
key that is not a column, rename the first matching variant column to the
same target instead (and drop the original key). -/
def buildRenameMap (cols : List String) : List (String × String) :=
  initialRenameMap.foldl
    (fun m kv =>
      if cols.contains kv.1 then m
      else
        match altCols cols kv.1 with
        | [] => m
        | a :: _ => dictPop (dictSet m a kv.2) kv.1)
    initialRenameMap

/-- Dict lookup used by `df.rename(columns=...)`. -/
def lookupStr (d : List (String × String)) (k : String) : Option String :=
  match d with
  | [] => none
  | (k', v) :: rest => if k' = k then some v else lookupStr rest k

/-- `df.rename(columns=m)` (line 85): every column name is mapped through
`m` (unmapped names unchanged; distinct sources mapped to the same target
yield duplicate column names). -/
def renameCols (df : DataFrame) (m : List (String × String)) : DataFrame :=
  ⟨df.cols.map (fun c => (lookupStr m c).getD c), df.rows⟩

/-- `df[col] = f(df[col])` cell-wise on every column named `col` (the
callers first check that exactly one column carries the name, so this
matches the single-series assignment of the source). -/
def mapColAll (df : DataFrame) (col : String) (f : Cell → Cell) : DataFrame :=
  ⟨df.cols,
   df.rows.map (fun r => List.zipWith (fun c cell => if c = col then f cell else cell) df.cols r)⟩

/-- Model of `pd.to_datetime(cell, errors="coerce")`: strings are parsed,
unparseable ones become `NaT`; missing and `None` become `NaT`; other
values (lists, objects; the numeric epoch interpretation is never fed by
this dashboard) coerce to `NaT`. -/
def toDatetimeCell : Cell → Cell
  | .ts t => .ts t
  | .jval (.jstr s) =>
    match parseTimestamp s with
    | some t => .ts t
    | none => .nan
  | _ => .nan

/-- `.dt.tz_localize(None)`: discard the UTC offset, keep the wall-clock
fields. -/
def stripTzCell : Cell → Cell
  | .ts t => .ts { t with tz := none }
  | c => c

/-- The cell of the first column named `k` in a row (`NaN` when the column
is missing or the row is short). -/
def cellAt : List String → List Cell → String → Cell
  | c :: cs, x :: xs, k => if c = k then x else cellAt cs xs k
  | _, _, _ => .nan

/-- The cells of the (first) column named `c`. -/
def colCells (df : DataFrame) (c : String) : List Cell :=
  df.rows.map (fun r => cellAt df.cols r c)

/-- The timezone status `pd.to_datetime` assigns a cell: `none` when the
cell coerces to `NaT` (it then fits any datetime dtype), otherwise the
parsed timestamp's UTC offset (`none` inside = naive). -/
def cellTz : Cell → Option (Option Int)
  | c =>
    match toDatetimeCell c with
    | .ts t => some t.tz
    | _ => none

/-- Whether `pd.to_datetime(df[col], errors="coerce")` produces a series
of datetime dtype: all parsed timestamps agree on their timezone status
(all naive, or all carrying one and the same offset).  A column mixing
naive and aware values, or two different offsets, comes back with object
dtype instead, and the subsequent `.dt` accessor raises. -/
def tzConsistent (cells : List Cell) : Bool :=
  match cells.filterMap cellTz with
  | [] => true
  | z :: rest => rest.all (fun z2 => z2 == z)

def dupDateMsg : String := "to_datetime: df[col] is not a single column"
def dupValorMsg : String := "to_numeric: df[valor] is not a single column"
def mixedTzMsg : String := "dt accessor on an object column of mixed-timezone timestamps"

/-- One iteration of lines 88-90: convert the date column `col` when
present.  `df[col]` under a duplicated name is a two-column frame, on
which `pd.to_datetime` raises; and when the column's parsed timestamps
mix timezone statuses `pd.to_datetime` yields an object-dtyped series,
on which `.dt.tz_localize(None)` raises.  The model keeps both
failures. -/
def convertOneDate (df : DataFrame) (col : String) : Except String DataFrame :=
  if df.cols.contains col then
    if df.cols.count col == 1 then
      if tzConsistent (colCells df col) then
        .ok (mapColAll df col (fun c => stripTzCell (toDatetimeCell c)))
      else .error mixedTzMsg
    else .error dupDateMsg
  else .ok df

/-- Lines 88-90: the three date columns, in source order. -/
def convertDates (df : DataFrame) : Except String DataFrame :=
  match convertOneDate df "closed_at" with
  | .error e => .error e
  | .ok d1 =>
    match convertOneDate d1 "prediction_date" with
    | .error e => .error e
    | .ok d2 => convertOneDate d2 "created_at"

/-- Model of `pd.to_numeric(cell, errors="coerce")`. -/
def toNumericCell : Cell → Cell
  | .num q => .num q
  | .jval (.jnum q) => .num q
  | .jval (.jbool b) => .num (if b then ⟨1, 0⟩ else ⟨0, 0⟩)
  | .jval (.jstr s) =>
    match parseDecNum s with
    | some q => .num q
    | none => .nan
  | _ => .nan

/-- Lines 93-94: `df["valor"] = pd.to_numeric(df["valor"], errors="coerce")`.
When both `amount` and `value` were renamed to `valor`, `df["valor"]` is a
two-column frame and `pd.to_numeric` raises (`arg must be ... 1-d`). -/
def coerceValor (df : DataFrame) : Except String DataFrame :=
  if df.cols.contains "valor" then
    if df.cols.count "valor" == 1 then .ok (mapColAll df "valor" toNumericCell)
    else .error dupValorMsg
  else .ok df

/-- The display-column list of line 97. -/
def displayCols : List String :=
  ["id", "nome", "status", "etapa", "valor", "closed_at", "prediction_date", "created_at"]

/-- Positions of the columns named `c`. -/
def colIdxs (cols : List String) (c : String) : List Nat :=
  (List.range cols.length).filter (fun i => cols.get? i == some c)

/-- The (name, position) pairs `df[keep]` selects: for each kept name,
every equally-named column, in frame order. -/
def selIdx (cols keep : List String) : List (String × Nat) :=
  keep.flatMap (fun c => (colIdxs cols c).map (fun i => (c, i)))

/-- `df[keep]` column selection (line 99). -/
def selectCols (df : DataFrame) (keep : List String) : DataFrame :=
  ⟨(selIdx df.cols keep).map Prod.fst,
   df.rows.map (fun r => (selIdx df.cols keep).map (fun p => r.getD p.2 Cell.nan))⟩

/-- Lines 62-85: the normalized frame right after the rename step. -/
def renamedFrame (deals : List (List (String × JVal))) : DataFrame :=
  renameCols (jsonNormalize deals) (buildRenameMap (jsonNormalize deals).cols)

/-- `load_data` (lines 56-103) as a function of the fetched deal records
(each an object, as `pd.json_normalize` requires): normalize, infer and
rename canonical columns, coerce dates and the amount, and keep the
display columns when at least one is present. -/
def load_data (deals : List (List (String × JVal))) : Except String DataFrame :=
  if deals.isEmpty then .ok ⟨[], []⟩
  else
    match convertDates (renamedFrame deals) with
    | .error e => .error e
    | .ok df2 =>
      match coerceValor df2 with
      | .error e => .error e
      | .ok df3 =>
        .ok (if (displayCols.filter (fun c => df3.cols.contains c)).isEmpty then df3
             else selectCols df3 (displayCols.filter (fun c => df3.cols.contains c)))

/-- First binding of key `k` in a stored record. -/
def lookupCell (r : List (String × Cell)) (k : String) : Option Cell :=
  match r with
  | [] => none
  | (k', v) :: rest => if k' = k then some v else lookupCell rest k

/-- The union of the record keys, in first-appearance order. -/
def unionKeys (recs : List (List (String × Cell))) : List String :=
  recs.foldl
    (fun acc r => r.foldl (fun a kv => if a.contains kv.1 then a else a ++ [kv.1]) acc) []

/-- `pd.DataFrame(records)` (line 176): columns are the union of the
record keys in first-appearance order; a record's missing keys become
`NaN`. -/
def recordsToDf (recs : List (List (String × Cell))) : DataFrame :=
  ⟨unionKeys recs,
   recs.map (fun r => (unionKeys recs).map (fun c => (lookupCell r c).getD .nan))⟩

/-- pandas `isna`: `NaN`/`NaT`/`None`. -/
def isNaCell : Cell → Bool
  | .nan => true
  | .jval .jnull => true
  | _ => false

/-- Values pandas sums as numbers (numbers and booleans). -/
def isNumCell : Cell → Bool
  | .num _ => true
  | .jval (.jnum _) => true
  | .jval (.jbool _) => true
  | _ => false

/-- The numeric value of a cell, when it has one. -/
def decOfCell : Cell → Option Dec
  | .num q => some q
  | .jval (.jnum q) => some q
  | .jval (.jbool b) => some (if b then ⟨1, 0⟩ else ⟨0, 0⟩)
  | _ => none

/-- The string value of a cell, when it has one. -/
def strOfCell : Cell → Option String
  | .jval (.jstr s) => some s
  | _ => none

/-- The `(year, month)` bucket of a timestamp cell
(`.dt.to_period("M")`). -/
def ymOfCell : Cell → Option (Nat × Nat)
  | .ts t => some (t.year, t.month)
  | _ => none

/-- `df[col].isin(sel)` on one cell, for the string selections coming from
the filter dropdowns (`NaN` and non-string values match nothing). -/
def cellInSel (c : Cell) (sel : List String) : Bool :=
  match c with
  | .jval (.jstr s) => sel.contains s
  | _ => false

/-- `df[mask]` boolean row selection. -/
def maskSelect (rows : List (List Cell)) (mask : List Bool) : List (List Cell) :=
  match rows, mask with
  | [], _ => []
  | _ :: _, [] => []
  | r :: rs, b :: bs => if b then r :: maskSelect rs bs else maskSelect rs bs

/-- One filter step of lines 179-182: `df = df[df[col].isin(sel)]`. -/
def filterIsin (df : DataFrame) (col : String) (sel : List String) : DataFrame :=
  ⟨df.cols, maskSelect df.rows (df.rows.map (fun r => cellInSel (cellAt df.cols r col) sel))⟩

/-- Lines 179-180: the stage filter, applied only when the selection is
truthy (non-empty) and the `etapa` column exists. -/
def applyStageFilter (df : DataFrame) (esel : List String) : DataFrame :=
  if !esel.isEmpty && df.cols.contains "etapa" then filterIsin df "etapa" esel else df

/-- Lines 181-182: the status filter, same shape. -/
def applyStatusFilter (df : DataFrame) (ssel : List String) : DataFrame :=
  if !ssel.isEmpty && df.cols.contains "status" then filterIsin df "status" ssel else df

/-- Lines 179-182: both filters, in source order. -/
def applyFilters (df : DataFrame) (esel ssel : List String) : DataFrame :=
  applyStatusFilter (applyStageFilter df esel) ssel

def sumErrMsg : String := "sum: non-numeric values in valor"
def groupbyErrMsg : String := "groupby: non-string etapa keys"
def dtErrMsg : String := "dt accessor on a non-datetime column"

/-- Lines 188-189: the amount KPI.  `None` models the source omitting the
KPI (`"no data"`) when the `valor` column is missing or all-`NaN`; the sum
skips `NaN` (pandas `skipna`).  Non-numeric, non-missing values make the
real `sum`/format step raise, which the model reports as an error. -/
def kpiSumE (df : DataFrame) : Except String (Option Dec) :=
  if df.cols.contains "valor" && !((colCells df "valor").all isNaCell) then
    if (colCells df "valor").all (fun c => isNaCell c || isNumCell c) then
      .ok (some ((colCells df "valor").foldl
        (fun a c =>
          match decOfCell c with
          | some q => Dec.add a q
          | none => a) ⟨0, 0⟩))
    else .error sumErrMsg
  else .ok none

/-- `df.groupby(k).size()` for string keys: `NaN` keys are dropped and the
groups come out sorted by key (pandas `sort=True`). -/
def groupCountsStr (ks : List String) : List (String × Nat) :=
  (List.insertionSort (fun a b : String => a ≤ b) ks.dedup).map (fun k => (k, ks.count k))

/-- Lines 191-195: the per-stage counts behind the bar chart; `[]` when
the `etapa` column is missing (the source then draws an empty chart).
pandas raises on unhashable or unsortable mixed-type keys; the model
requires the string keys a canonical collection carries. -/
def etapaCountsE (df : DataFrame) : Except String (List (String × Nat)) :=
  if df.cols.contains "etapa" then
    if (colCells df "etapa").all (fun c => isNaCell c || (strOfCell c).isSome) then
      .ok (groupCountsStr ((colCells df "etapa").filterMap strOfCell))
    else .error groupbyErrMsg
  else .ok []

/-- Chronological (lexicographic) order on `(year, month)` buckets.  The
source sorts the `to_period("M").astype(str)` strings `YYYY-MM`, whose
lexicographic order coincides with this one for the four-digit years
pandas timestamps can hold. -/
def ymLe (a b : Nat × Nat) : Prop := a.1 < b.1 ∨ (a.1 = b.1 ∧ a.2 ≤ b.2)

/-- Strict chronological order on `(year, month)` buckets. -/
def ymLt (a b : Nat × Nat) : Prop := a.1 < b.1 ∨ (a.1 = b.1 ∧ a.2 < b.2)

instance : ∀ a b, Decidable (ymLe a b) := fun _ _ => by unfold ymLe; infer_instance

instance : ∀ a b, Decidable (ymLt a b) := fun _ _ => by unfold ymLt; infer_instance

instance : IsTotal (Nat × Nat) ymLe :=
  ⟨by rintro ⟨a1, a2⟩ ⟨b1, b2⟩; simp only [ymLe]; omega⟩

instance : IsTrans (Nat × Nat) ymLe :=
  ⟨by rintro ⟨a1, a2⟩ ⟨b1, b2⟩ ⟨c1, c2⟩; simp only [ymLe]; omega⟩

/-- `dff.groupby("mes").size()`: month buckets with counts, sorted
chronologically. -/
def groupCountsYM (ks : List (Nat × Nat)) : List ((Nat × Nat) × Nat) :=
  (List.insertionSort ymLe ks.dedup).map (fun k => (k, ks.count k))

/-- Line 198: the date-source column, `created_at` before `closed_at`. -/
def dateColOf (cols : List String) : Option String :=
  if cols.contains "created_at" then some "created_at"
  else if cols.contains "closed_at" then some "closed_at"
  else none

/-- Lines 199-207 for a present date column `dc`: `[]` when every date is
missing (`dff` empty, empty chart), else the month buckets.  When some
non-missing value of the column is not a timestamp the column is not
datetime-typed and the source's `.dt` accessor raises. -/
def monthlyForCol (df : DataFrame) (dc : String) : Except String (List ((Nat × Nat) × Nat)) :=
  if (colCells df dc).all isNaCell then .ok []
  else if (colCells df dc).all (fun c => isNaCell c || (ymOfCell c).isSome) then
    .ok (groupCountsYM ((colCells df dc).filterMap ymOfCell))
  else .error dtErrMsg

/-- Lines 197-207: the monthly counts behind the second chart; `[]` when
no date column exists. -/
def monthlyE (df : DataFrame) : Except String (List ((Nat × Nat) × Nat)) :=
  match dateColOf df.cols with
  | none => .ok []
  | some dc => monthlyForCol df dc

/-- The four artifacts `update_views` returns: the table (columns and
rows), the per-stage counts, the per-month counts, and the two KPI
scalars (`kpiSum = none` models the omitted "Soma Valor" KPI). -/
structure DerivedView where
  tableCols : List String
  tableRows : List (List Cell)
  etapaCounts : List (String × Nat)
  monthly : List ((Nat × Nat) × Nat)
  kpiTotal : Nat
  kpiSum : Option Dec
deriving Repr, Inhabited

/-- Lines 184-209 on the already-filtered frame: the KPIs, the two
charts, the table rows.  Errors model the places where the pandas calls
of the source raise on non-canonical cell values. -/
def buildView (df : DataFrame) : Except String DerivedView :=
  match kpiSumE df with
  | .error e => .error e
  | .ok s =>
    match etapaCountsE df with
    | .error e => .error e
    | .ok ec =>
      match monthlyE df with
      | .error e => .error e
      | .ok mo => .ok ⟨df.cols, df.rows, ec, mo, df.rows.length, s⟩

/-- `update_views` (lines 175-209) as a function of the stored records
(`data`, which the callback receives; `none` models Python `None`, handled
by `data or []`) and the two dropdown selections (an absent selection is
the empty list, exactly as falsy in the source). -/
def update_views (data? : Option (List (List (String × Cell)))) (esel ssel : List String) :
    Except String DerivedView :=
  buildView (applyFilters (recordsToDf (data?.getD [])) esel ssel)

/-- The cell values a canonical record (section 3 of the spec) may carry
in the columns `update_views` computes with: string-or-absent stages,
numeric-or-absent amounts, timestamp-or-absent dates. -/
def cellOKfor (k : String) (c : Cell) : Bool :=
  if k == "etapa" then isNaCell c || (strOfCell c).isSome
  else if k == "valor" then isNaCell c || isNumCell c
  else if k == "created_at" || k == "closed_at" then isNaCell c || (ymOfCell c).isSome
  else true

/-- A stored collection is canonical when every field of every record is
well-typed for its column. -/
def canonicalData (recs : List (List (String × Cell))) : Bool :=
  recs.all (fun r => r.all (fun kv => cellOKfor kv.1 kv.2))

/-! ### Claim theorems -/

/-- The two page-extraction match stages of `extractPage`, merged. -/
lemma extractTail (v : JVal) :
    (match
      (match v with
       | .jobj fs =>
         match fs.find? (fun kv : String × JVal => kv.2.isList) with
         | some kv => kv.2
         | none => .jobj fs
       | v => v) with
     | .jlist xs => xs
     | _ => []) =
    (match v with
     | .jlist xs => xs
     | .jobj fs =>
       match fs.find? (fun kv : String × JVal => kv.2.isList) with
       | some kv => kv.2.asList
       | none => []
     | _ => []) := by
  cases v with
  | jobj fs =>
    cases h : fs.find? (fun kv : String × JVal => kv.2.isList) with
    | none => simp [h]
    | some kv =>
      have hl := List.find?_some h
      simp only at hl
      cases h2 : kv.2 <;> simp_all [JVal.isList, JVal.asList]
  | jnull => rfl
  | jbool b => rfl
  | jnum q => rfl
  | jstr s => rfl
  | jlist xs => rfl

/-- C1 (amended): the record list of a page is determined by Python
truthiness, not key presence: the chosen value is the first truthy one
among the `deals` value, the `items` value and the payload object itself
(a falsy value — missing key, `null`, empty list — is skipped); a chosen
object is replaced by its first list-valued member; any non-list outcome
contributes zero records, without failing. -/
theorem claim_C1_amended (data : List (String × JVal)) :
    extractPage data = pageRecords data := by
  unfold extractPage pageRecords pyOr
  exact extractTail _

/-- Counterexample to C1 as stated: on the page
`{"deals": [], "items": [1]}` the claimed presence-based precedence
locates the (empty) `deals` list, so the page would contribute zero
records, but the code skips the falsy empty list and returns the `items`
records. -/
theorem claim_C1_cex :
    claimC1locate [("deals", .jlist []), ("items", .jlist [jint 1])] = [] ∧
    extractPage [("deals", .jlist []), ("items", .jlist [jint 1])] = [jint 1] ∧
    ([jint 1] : List JVal) ≠ [] :=
  ⟨rfl, rfl, by simp⟩

/-- C3: the pagination loop stops at the first page lacking a valid
continuation — it continues past a page exactly when both
`bool(data.get("has_more"))` and `data.get("next_page")` are truthy; in
particular `has_more = true` with `next_page` absent terminates. -/
theorem claim_C3_stop (page : List (String × JVal)) (rest : List (List (String × JVal))) :
    (¬(truthy (objGet page "has_more") = true ∧ truthy (objGet page "next_page") = true) →
      fetch_all_deals (page :: rest) = extractPage page) ∧
    ((truthy (objGet page "has_more") = true ∧ truthy (objGet page "next_page") = true) →
      fetch_all_deals (page :: rest) = extractPage page ++ fetch_all_deals rest) := by
  constructor
  · intro h
    simp only [fetch_all_deals]
    rw [if_neg]
    simpa [Bool.and_eq_true] using h
  · intro h
    simp only [fetch_all_deals]
    rw [if_pos]
    simpa [Bool.and_eq_true] using h

/-- Witness for C3 on the spec's synthetic sequence: the final page sets
`has_more = true` but omits `next_page`, and the loop terminates without
consuming the later page. -/
theorem claim_C3_stop_witness :
    fetch_all_deals
      [[("deals", .jlist [jint 5]), ("has_more", .jbool true)],
       [("deals", .jlist [jint 9])]] = [jint 5] := by
  have h := (claim_C3_stop [("deals", .jlist [jint 5]), ("has_more", .jbool true)]
      [[("deals", .jlist [jint 9])]]).1 (by decide)
  rw [h]
  rfl

/-- Counterexample to C4 as stated: on a record with both `amount: 10` and
`value: 42` the claimed precedence would make the canonical amount 10, but
normalization fails outright (both columns are renamed to `valor` and the
numeric coercion raises on the resulting two-column frame). -/
theorem claim_C4_cex :
    load_data [[("amount", jint 10), ("value", jint 42)]] = .error dupValorMsg := rfl

/-- C4 (amended): `amount` and `value` are both unconditionally mapped to
the canonical amount column, not tried in order.  With exactly one of them
present that one becomes the amount — in particular `value: 42` alone
yields amount 42 — while with both present the rename duplicates the
column and normalization fails instead of preferring `amount`. -/
theorem claim_C4_amended (q r : Int) :
    load_data [[("value", jint q)]] = .ok ⟨["valor"], [[.num ⟨q, 0⟩]]⟩ ∧
    load_data [[("amount", jint q)]] = .ok ⟨["valor"], [[.num ⟨q, 0⟩]]⟩ ∧
    load_data [[("amount", jint q), ("value", jint r)]] = .error dupValorMsg :=
  ⟨rfl, rfl, rfl⟩

/-- C10: on a raw record with both `amount` and `value` as top-level
columns, the rename step maps both source columns to the single canonical
amount column `valor`, so the renamed frame has a duplicated column name —
the canonical one-value-per-key flat schema is gone — and the subsequent
numeric coercion of `df["valor"]` fails instead of recovering per
field. -/
theorem claim_C10_dup :
    (renameCols (jsonNormalize [[("amount", jint 1), ("value", jint 2)]])
        (buildRenameMap (jsonNormalize [[("amount", jint 1), ("value", jint 2)]]).cols)).cols =
      ["valor", "valor"] ∧
    load_data [[("amount", jint 1), ("value", jint 2)]] = .error dupValorMsg :=
  ⟨rfl, rfl⟩

lemma maskSelect_map (rows : List (List Cell)) (p : List Cell → Bool) :
    maskSelect rows (rows.map p) = rows.filter p := by
  induction rows with
  | nil => rfl
  | cons r rs ih =>
    simp only [List.map_cons, maskSelect, List.filter_cons]
    by_cases hp : p r = true
    · rw [if_pos hp, if_pos hp, ih]
    · rw [if_neg hp, if_neg hp, ih]

lemma filterIsin_rows (df : DataFrame) (col : String) (sel : List String) :
    (filterIsin df col sel).rows =
      df.rows.filter (fun r => cellInSel (cellAt df.cols r col) sel) := by
  unfold filterIsin
  exact maskSelect_map _ _

lemma filterIsin_cols (df : DataFrame) (col : String) (sel : List String) :
    (filterIsin df col sel).cols = df.cols := rfl

lemma applyStageFilter_cols (df : DataFrame) (esel : List String) :
    (applyStageFilter df esel).cols = df.cols := by
  unfold applyStageFilter
  split <;> rfl

lemma applyStatusFilter_cols (df : DataFrame) (ssel : List String) :
    (applyStatusFilter df ssel).cols = df.cols := by
  unfold applyStatusFilter
  split <;> rfl

lemma applyFilters_cols (df : DataFrame) (esel ssel : List String) :
    (applyFilters df esel ssel).cols = df.cols := by
  unfold applyFilters
  rw [applyStatusFilter_cols, applyStageFilter_cols]

lemma applyStageFilter_rows (df : DataFrame) (esel : List String) :
    (applyStageFilter df esel).rows = df.rows.filter (fun r =>
      if !esel.isEmpty && df.cols.contains "etapa" then
        cellInSel (cellAt df.cols r "etapa") esel else true) := by
  unfold applyStageFilter
  by_cases hc : (!esel.isEmpty && df.cols.contains "etapa") = true
  · rw [if_pos hc, filterIsin_rows]
    exact List.filter_congr (fun r _ => by rw [if_pos hc])
  · rw [if_neg hc]
    have he : (fun r : List Cell =>
        if !esel.isEmpty && df.cols.contains "etapa" then
          cellInSel (cellAt df.cols r "etapa") esel else true) = fun _ => true :=
      funext fun r => if_neg hc
    rw [he, List.filter_true]

lemma applyStatusFilter_rows (df : DataFrame) (ssel : List String) :
    (applyStatusFilter df ssel).rows = df.rows.filter (fun r =>
      if !ssel.isEmpty && df.cols.contains "status" then
        cellInSel (cellAt df.cols r "status") ssel else true) := by
  unfold applyStatusFilter
  by_cases hc : (!ssel.isEmpty && df.cols.contains "status") = true
  · rw [if_pos hc, filterIsin_rows]
    exact List.filter_congr (fun r _ => by rw [if_pos hc])
  · rw [if_neg hc]
    have he : (fun r : List Cell =>
        if !ssel.isEmpty && df.cols.contains "status" then
          cellInSel (cellAt df.cols r "status") ssel else true) = fun _ => true :=
      funext fun r => if_neg hc
    rw [he, List.filter_true]

lemma applyFilters_rows (df : DataFrame) (esel ssel : List String) :
    (applyFilters df esel ssel).rows = df.rows.filter (fun r =>
      (if !esel.isEmpty && df.cols.contains "etapa" then
        cellInSel (cellAt df.cols r "etapa") esel else true) &&
      (if !ssel.isEmpty && df.cols.contains "status" then
        cellInSel (cellAt df.cols r "status") ssel else true)) := by
  unfold applyFilters
  rw [applyStatusFilter_rows, applyStageFilter_cols, applyStageFilter_rows,
    List.filter_filter]
  exact List.filter_congr (fun r _ => Bool.and_comm _ _)

lemma buildView_ok {df : DataFrame} {dv : DerivedView} (h : buildView df = .ok dv) :
    dv.tableCols = df.cols ∧ dv.tableRows = df.rows ∧ dv.kpiTotal = df.rows.length ∧
    kpiSumE df = .ok dv.kpiSum ∧ etapaCountsE df = .ok dv.etapaCounts ∧
    monthlyE df = .ok dv.monthly := by
  unfold buildView at h
  cases hk : kpiSumE df with
  | error e => rw [hk] at h; exact absurd h (by simp)
  | ok s =>
    rw [hk] at h
    cases he : etapaCountsE df with
    | error e => rw [he] at h; exact absurd h (by simp)
    | ok ec =>
      rw [he] at h
      cases hm : monthlyE df with
      | error e => rw [hm] at h; exact absurd h (by simp)
      | ok mo =>
        rw [hm] at h
        injection h with h
        subst h
        exact ⟨rfl, rfl, rfl, rfl, rfl, rfl⟩

/-- C6: the table rows of an (error-free) derived view are exactly the
input rows that pass both filters, in their original order: each filter
applies only when its selection is non-empty and its column exists, and
then retains the rows whose cell value is in the selected set. -/
theorem claim_C6_filter (data : List (List (String × Cell))) (esel ssel : List String)
    (dv : DerivedView) (h : update_views (some data) esel ssel = .ok dv) :
    dv.tableRows = (recordsToDf data).rows.filter (fun r =>
      (if !esel.isEmpty && (recordsToDf data).cols.contains "etapa" then
        cellInSel (cellAt (recordsToDf data).cols r "etapa") esel else true) &&
      (if !ssel.isEmpty && (recordsToDf data).cols.contains "status" then
        cellInSel (cellAt (recordsToDf data).cols r "status") ssel else true)) := by
  have hb := buildView_ok h
  rw [hb.2.1, applyFilters_rows]
  rfl

/-- Witness for C6 on the spec's test vector: filtering stages
`[won, lost, won]` by `{won}` keeps exactly the two `won` rows in
order. -/
theorem claim_C6_filter_witness :
    ∃ dv, update_views
        (some [[("etapa", .jval (.jstr "won"))], [("etapa", .jval (.jstr "lost"))],
               [("etapa", .jval (.jstr "won"))]]) ["won"] [] = .ok dv ∧
      dv.tableRows = [[.jval (.jstr "won")], [.jval (.jstr "won")]] := by
  refine ⟨_, rfl, ?_⟩
  have h := claim_C6_filter
    [[("etapa", .jval (.jstr "won"))], [("etapa", .jval (.jstr "lost"))],
     [("etapa", .jval (.jstr "won"))]] ["won"] [] _ rfl
  rw [h]
  rfl

lemma foldl_dec_filterMap (l : List Cell) (z : Dec) :
    l.foldl (fun a c =>
      match decOfCell c with
      | some q => Dec.add a q
      | none => a) z = (l.filterMap decOfCell).foldl Dec.add z := by
  induction l generalizing z with
  | nil => rfl
  | cons c cs ih =>
    cases hd : decOfCell c <;> simp [List.filterMap_cons, hd, ih, List.foldl_cons]

lemma valorCond_iff (df : DataFrame) :
    (df.cols.contains "valor" && !((colCells df "valor").all isNaCell)) = true ↔
      ("valor" ∈ df.cols ∧ ∃ c ∈ colCells df "valor", isNaCell c = false) := by
  rw [Bool.and_eq_true]
  constructor
  · rintro ⟨h1, h2⟩
    refine ⟨List.elem_iff.mp h1, ?_⟩
    by_contra hn
    push_neg at hn
    have hall : (colCells df "valor").all isNaCell = true :=
      List.all_eq_true.mpr fun c hc => by
        have := hn c hc
        cases hx : isNaCell c
        · exact absurd hx this
        · rfl
    simp [hall] at h2
  · rintro ⟨h1, c, hc, hna⟩
    refine ⟨List.elem_iff.mpr h1, ?_⟩
    have : (colCells df "valor").all isNaCell = false := by
      cases hx : (colCells df "valor").all isNaCell
      · rfl
      · have := List.all_eq_true.mp hx c hc
        rw [hna] at this
        exact absurd this (by simp)
    simp [this]

lemma kpiSumE_spec {df : DataFrame} {s : Option Dec} (h : kpiSumE df = .ok s) :
    (¬("valor" ∈ df.cols ∧ ∃ c ∈ colCells df "valor", isNaCell c = false) → s = none) ∧
    (("valor" ∈ df.cols ∧ ∃ c ∈ colCells df "valor", isNaCell c = false) →
      s = some (((colCells df "valor").filterMap decOfCell).foldl Dec.add ⟨0, 0⟩)) := by
  unfold kpiSumE at h
  by_cases hc : (df.cols.contains "valor" && !((colCells df "valor").all isNaCell)) = true
  · rw [if_pos hc] at h
    by_cases hg : ((colCells df "valor").all fun c => isNaCell c || isNumCell c) = true
    · rw [if_pos hg] at h
      injection h with h
      constructor
      · intro hn
        exact absurd ((valorCond_iff df).mp hc) hn
      · intro _
        rw [← h, foldl_dec_filterMap]
    · rw [if_neg hg] at h
      exact absurd h (by simp)
  · rw [if_neg hc] at h
    injection h with h
    constructor
    · intro _
      exact h.symm
    · intro hp
      exact absurd ((valorCond_iff df).mpr hp) hc

/-- C8: the KPIs of an (error-free) derived view are the filtered record
count and the sum of the non-absent `amount` values (absent values are
skipped); when the `valor` column is missing or all its values are absent
the sum KPI is `none` ("no data"), distinct from a computed 0. -/
theorem claim_C8_kpis (data : List (List (String × Cell))) (esel ssel : List String)
    (dv : DerivedView) (h : update_views (some data) esel ssel = .ok dv) :
    dv.kpiTotal = (applyFilters (recordsToDf data) esel ssel).rows.length ∧
    (¬("valor" ∈ (applyFilters (recordsToDf data) esel ssel).cols ∧
        ∃ c ∈ colCells (applyFilters (recordsToDf data) esel ssel) "valor",
          isNaCell c = false) →
      dv.kpiSum = none) ∧
    (("valor" ∈ (applyFilters (recordsToDf data) esel ssel).cols ∧
        ∃ c ∈ colCells (applyFilters (recordsToDf data) esel ssel) "valor",
          isNaCell c = false) →
      dv.kpiSum = some (((colCells (applyFilters (recordsToDf data) esel ssel)
        "valor").filterMap decOfCell).foldl Dec.add ⟨0, 0⟩)) := by
  have hb := buildView_ok h
  exact ⟨hb.2.2.1, (kpiSumE_spec hb.2.2.2.1).1, (kpiSumE_spec hb.2.2.2.1).2⟩

/-- Witness for C8 on the spec's test vector: amounts
`[100, absent, 50]` give count 3 and sum 150. -/
theorem claim_C8_kpis_witness :
    ∃ dv, update_views
        (some [[("valor", .num ⟨100, 0⟩)], [("valor", .nan)], [("valor", .num ⟨50, 0⟩)]])
        [] [] = .ok dv ∧
      dv.kpiTotal = 3 ∧ dv.kpiSum = some ⟨150, 0⟩ := by
  refine ⟨_, rfl, ?_, ?_⟩
  · have h := claim_C8_kpis
      [[("valor", .num ⟨100, 0⟩)], [("valor", .nan)], [("valor", .num ⟨50, 0⟩)]] [] [] _ rfl
    rw [h.1]
    rfl
  · have h := claim_C8_kpis
      [[("valor", .num ⟨100, 0⟩)], [("valor", .nan)], [("valor", .num ⟨50, 0⟩)]] [] [] _ rfl
    rw [h.2.2 (by decide)]
    rfl

lemma groupCountsYM_fst (ks : List (Nat × Nat)) :
    (groupCountsYM ks).map Prod.fst = List.insertionSort ymLe ks.dedup := by
  unfold groupCountsYM
  rw [List.map_map]
  have hc : (Prod.fst ∘ fun k : Nat × Nat => (k, ks.count k)) = id := rfl
  rw [hc, List.map_id]

lemma ymLt_of_ymLe_ne {a b : Nat × Nat} (h1 : ymLe a b) (h2 : a ≠ b) : ymLt a b := by
  rcases a with ⟨a1, a2⟩
  rcases b with ⟨b1, b2⟩
  simp only [ymLe, ymLt] at *
  have hne : ¬(a1 = b1 ∧ a2 = b2) := fun he => h2 (by rw [he.1, he.2])
  omega

lemma groupCountsYM_sorted (ks : List (Nat × Nat)) :
    List.Pairwise ymLt ((groupCountsYM ks).map Prod.fst) := by
  rw [groupCountsYM_fst]
  have hs : List.Pairwise ymLe (List.insertionSort ymLe ks.dedup) :=
    List.sorted_insertionSort ymLe ks.dedup
  have hn : List.Pairwise (fun a b : Nat × Nat => a ≠ b)
      (List.insertionSort ymLe ks.dedup) :=
    (List.perm_insertionSort ymLe ks.dedup).nodup_iff.mpr (List.nodup_dedup ks)
  exact (hs.and hn).imp fun h => ymLt_of_ymLe_ne h.1 h.2

lemma groupCountsYM_mem (ks : List (Nat × Nat)) (ym : Nat × Nat) (n : Nat) :
    ((ym, n) ∈ groupCountsYM ks) ↔ (ym ∈ ks ∧ n = ks.count ym) := by
  unfold groupCountsYM
  rw [List.mem_map]
  constructor
  · rintro ⟨k, hk, he⟩
    obtain ⟨h1, h2⟩ := Prod.mk.injEq .. ▸ he
    subst h1
    rw [(List.perm_insertionSort ymLe ks.dedup).mem_iff, List.mem_dedup] at hk
    exact ⟨hk, h2.symm⟩
  · rintro ⟨hm, rfl⟩
    refine ⟨ym, ?_, rfl⟩
    rw [(List.perm_insertionSort ymLe ks.dedup).mem_iff, List.mem_dedup]
    exact hm

lemma ymOfCell_eq_none_of_na {c : Cell} (h : isNaCell c = true) : ymOfCell c = none := by
  cases c <;> simp_all [isNaCell, ymOfCell]

lemma filterMap_ym_nil {cells : List Cell} (h : ∀ c ∈ cells, isNaCell c = true) :
    cells.filterMap ymOfCell = [] := by
  induction cells with
  | nil => rfl
  | cons c cs ih =>
    rw [List.filterMap_cons, ymOfCell_eq_none_of_na (h c (by simp))]
    exact ih fun x hx => h x (by simp [hx])

lemma monthlyE_spec {df : DataFrame} {mo : List ((Nat × Nat) × Nat)}
    (h : monthlyE df = .ok mo) :
    (dateColOf df.cols = none → mo = []) ∧
    (∀ dc, dateColOf df.cols = some dc →
      List.Pairwise ymLt (mo.map Prod.fst) ∧
      ∀ ym n, ((ym, n) ∈ mo ↔
        ym ∈ (colCells df dc).filterMap ymOfCell ∧
        n = ((colCells df dc).filterMap ymOfCell).count ym)) := by
  unfold monthlyE at h
  split at h
  next heq =>
    refine ⟨fun _ => ?_, fun dc hdc => ?_⟩
    · injection h with h
      exact h.symm
    · rw [heq] at hdc
      exact absurd hdc (by simp)
  next dc heq =>
    refine ⟨fun hnone => ?_, fun dc2 hdc => ?_⟩
    · rw [heq] at hnone
      exact absurd hnone (by simp)
    · rw [heq] at hdc
      injection hdc with hdc
      subst hdc
      unfold monthlyForCol at h
      by_cases hna : ((colCells df dc).all isNaCell) = true
      · rw [if_pos hna] at h
        injection h with h
        subst h
        have hnil : (colCells df dc).filterMap ymOfCell = [] :=
          filterMap_ym_nil (List.all_eq_true.mp hna)
        refine ⟨List.Pairwise.nil, ?_⟩
        intro ym n
        simp [hnil]
      · rw [if_neg hna] at h
        by_cases hok : ((colCells df dc).all fun c => isNaCell c || (ymOfCell c).isSome) = true
        · rw [if_pos hok] at h
          injection h with h
          subst h
          exact ⟨groupCountsYM_sorted _, fun ym n => groupCountsYM_mem _ ym n⟩
        · rw [if_neg hok] at h
          exact absurd h (by simp)

/-- C7: the monthly aggregate of an (error-free) derived view uses
`created_at` as date source when that column exists, else `closed_at`,
else it is empty; records with an absent date are dropped, the rest are
bucketed by calendar year-month, each bucket count is the exact number of
records falling in that month, and the buckets are strictly
chronologically ordered. -/
theorem claim_C7_monthly (data : List (List (String × Cell))) (esel ssel : List String)
    (dv : DerivedView) (h : update_views (some data) esel ssel = .ok dv) :
    (dateColOf (applyFilters (recordsToDf data) esel ssel).cols = none → dv.monthly = []) ∧
    (∀ dc, dateColOf (applyFilters (recordsToDf data) esel ssel).cols = some dc →
      List.Pairwise ymLt (dv.monthly.map Prod.fst) ∧
      ∀ ym n, ((ym, n) ∈ dv.monthly ↔
        ym ∈ (colCells (applyFilters (recordsToDf data) esel ssel) dc).filterMap ymOfCell ∧
        n = ((colCells (applyFilters (recordsToDf data) esel ssel) dc).filterMap
          ymOfCell).count ym)) := by
  have hb := buildView_ok h
  exact monthlyE_spec hb.2.2.2.2.2

/-- Witness for C7 on the spec's test vector: `created_at` values
2024-01-05, 2024-01-20, 2024-02-01 yield buckets 2024-01 → 2 and
2024-02 → 1 in chronological order. -/
theorem claim_C7_monthly_witness :
    ∃ dv, update_views (some [[("created_at", .ts ⟨2024, 1, 5, 0, 0, 0, none⟩)],
        [("created_at", .ts ⟨2024, 1, 20, 0, 0, 0, none⟩)],
        [("created_at", .ts ⟨2024, 2, 1, 0, 0, 0, none⟩)]]) [] [] = .ok dv ∧
      List.Pairwise ymLt (dv.monthly.map Prod.fst) ∧
      ((2024, 1), 2) ∈ dv.monthly ∧ ((2024, 2), 1) ∈ dv.monthly := by
  have h := claim_C7_monthly [[("created_at", .ts ⟨2024, 1, 5, 0, 0, 0, none⟩)],
      [("created_at", .ts ⟨2024, 1, 20, 0, 0, 0, none⟩)],
      [("created_at", .ts ⟨2024, 2, 1, 0, 0, 0, none⟩)]] [] [] _ rfl
  refine ⟨_, rfl, (h.2 "created_at" rfl).1, ?_, ?_⟩
  · exact ((h.2 "created_at" rfl).2 (2024, 1) 2).mpr (by decide)
  · exact ((h.2 "created_at" rfl).2 (2024, 2) 1).mpr (by decide)

lemma lookupCell_mem {r : List (String × Cell)} {k : String} {v : Cell}
    (h : lookupCell r k = some v) : (k, v) ∈ r := by
  induction r with
  | nil => exact absurd h (by simp [lookupCell])
  | cons kv rest ih =>
    obtain ⟨k', v'⟩ := kv
    simp only [lookupCell] at h
    split at h
    next heq =>
      injection h with h
      subst h
      subst heq
      exact List.mem_cons_self _ _
    next => exact List.mem_cons_of_mem _ (ih h)

lemma cellOKfor_nan (k : String) : cellOKfor k Cell.nan = true := by
  unfold cellOKfor
  split_ifs <;> rfl

lemma cellAt_map (cols : List String) (g : String → Cell) (k : String) :
    cellAt cols (cols.map g) k = if cols.contains k then g k else .nan := by
  induction cols with
  | nil => rfl
  | cons c cs ih =>
    by_cases hck : c = k
    · subst hck
      simp [cellAt]
    · simp [cellAt, hck, ih, List.contains_cons, Ne.symm hck]

/-- Cells of the filtered frame, keyed by their column name, all satisfy
the canonical typing when the stored records do. -/
lemma canonical_cells {recs : List (List (String × Cell))} {esel ssel : List String}
    (hc : canonicalData recs = true) :
    ∀ cname c, c ∈ colCells (applyFilters (recordsToDf recs) esel ssel) cname →
      cellOKfor cname c = true := by
  intro cname c hmem
  unfold colCells at hmem
  obtain ⟨r, hr, rfl⟩ := List.mem_map.mp hmem
  rw [applyFilters_rows] at hr
  have hr0 : r ∈ (recordsToDf recs).rows := (List.mem_filter.mp hr).1
  obtain ⟨rec, hrec, rfl⟩ := List.mem_map.mp hr0
  rw [applyFilters_cols]
  show cellOKfor cname
    (cellAt (unionKeys recs) ((unionKeys recs).map
      (fun c => (lookupCell rec c).getD .nan)) cname) = true
  rw [cellAt_map]
  by_cases hcont : (unionKeys recs).contains cname = true
  · rw [if_pos hcont]
    cases hlk : lookupCell rec cname with
    | none => exact cellOKfor_nan cname
    | some v =>
      have hv : (cname, v) ∈ rec := lookupCell_mem hlk
      have := List.all_eq_true.mp (List.all_eq_true.mp hc rec hrec) (cname, v) hv
      simpa using this
  · rw [if_neg hcont]
    exact cellOKfor_nan cname

lemma kpiSumE_ok_of {df : DataFrame}
    (hc : ∀ c ∈ colCells df "valor", (isNaCell c || isNumCell c) = true) :
    ∃ s, kpiSumE df = .ok s ∧ ("valor" ∉ df.cols → s = none) := by
  unfold kpiSumE
  by_cases h1 : (df.cols.contains "valor" && !((colCells df "valor").all isNaCell)) = true
  · rw [if_pos h1, if_pos (List.all_eq_true.mpr hc)]
    rw [Bool.and_eq_true] at h1
    exact ⟨_, rfl, fun hn => absurd (List.elem_iff.mp h1.1) hn⟩
  · rw [if_neg h1]
    exact ⟨none, rfl, fun _ => rfl⟩

lemma etapaCountsE_ok_of {df : DataFrame}
    (hc : ∀ c ∈ colCells df "etapa", (isNaCell c || (strOfCell c).isSome) = true) :
    ∃ ec, etapaCountsE df = .ok ec ∧ ("etapa" ∉ df.cols → ec = []) := by
  unfold etapaCountsE
  by_cases h1 : df.cols.contains "etapa" = true
  · rw [if_pos h1, if_pos (List.all_eq_true.mpr hc)]
    exact ⟨_, rfl, fun hn => absurd (List.elem_iff.mp h1) hn⟩
  · rw [if_neg h1]
    exact ⟨[], rfl, fun _ => rfl⟩

lemma monthlyE_ok_of {df : DataFrame}
    (hcr : ∀ c ∈ colCells df "created_at", (isNaCell c || (ymOfCell c).isSome) = true)
    (hcl : ∀ c ∈ colCells df "closed_at", (isNaCell c || (ymOfCell c).isSome) = true) :
    ∃ mo, monthlyE df = .ok mo ∧ (dateColOf df.cols = none → mo = []) := by
  unfold monthlyE
  cases hd : dateColOf df.cols with
  | none => exact ⟨[], rfl, fun _ => rfl⟩
  | some dc =>
    have hdc : dc = "created_at" ∨ dc = "closed_at" := by
      unfold dateColOf at hd
      by_cases h1 : df.cols.contains "created_at" = true
      · rw [if_pos h1] at hd
        exact Or.inl (Option.some.inj hd).symm
      · rw [if_neg h1] at hd
        by_cases h2 : df.cols.contains "closed_at" = true
        · rw [if_pos h2] at hd
          exact Or.inr (Option.some.inj hd).symm
        · rw [if_neg h2] at hd
          exact absurd hd (by simp)
    have hall : ∀ c ∈ colCells df dc, (isNaCell c || (ymOfCell c).isSome) = true := by
      rcases hdc with rfl | rfl
      · exact hcr
      · exact hcl
    have hred : (match some dc with
        | none => (Except.ok [] : Except String (List ((Nat × Nat) × Nat)))
        | some dc => monthlyForCol df dc) = monthlyForCol df dc := rfl
    rw [hred]
    unfold monthlyForCol
    by_cases hna : ((colCells df dc).all isNaCell) = true
    · rw [if_pos hna]
      exact ⟨[], rfl, fun _ => rfl⟩
    · rw [if_neg hna, if_pos (List.all_eq_true.mpr hall)]
      refine ⟨_, rfl, fun hn => ?_⟩
      exact absurd hn (by simp)

/-- C9: on a canonical collection the View Engine is total — it reaches no
failing pandas call for any filter selection — and missing columns degrade
to an omitted KPI or empty aggregates.  (It is a pure Lean function, so
identical inputs give the identical `DerivedView` by definition.) -/
theorem claim_C9_total (data : List (List (String × Cell))) (esel ssel : List String)
    (hc : canonicalData data = true) :
    ∃ dv, update_views (some data) esel ssel = .ok dv ∧
      ("valor" ∉ (recordsToDf data).cols → dv.kpiSum = none) ∧
      ("etapa" ∉ (recordsToDf data).cols → dv.etapaCounts = []) ∧
      (dateColOf (recordsToDf data).cols = none → dv.monthly = []) := by
  have hcell := @canonical_cells data esel ssel hc
  have hcols : (applyFilters (recordsToDf data) esel ssel).cols = (recordsToDf data).cols :=
    applyFilters_cols _ _ _
  obtain ⟨s, hs, hs0⟩ := kpiSumE_ok_of (fun c hcv => hcell "valor" c hcv)
  obtain ⟨ec, he, he0⟩ := etapaCountsE_ok_of (fun c hcv => hcell "etapa" c hcv)
  obtain ⟨mo, hm, hm0⟩ := monthlyE_ok_of (fun c hcv => hcell "created_at" c hcv)
    (fun c hcv => hcell "closed_at" c hcv)
  refine ⟨⟨(applyFilters (recordsToDf data) esel ssel).cols,
    (applyFilters (recordsToDf data) esel ssel).rows, ec, mo,
    (applyFilters (recordsToDf data) esel ssel).rows.length, s⟩, ?_, ?_, ?_, ?_⟩
  · show buildView (applyFilters (recordsToDf data) esel ssel) = _
    unfold buildView
    rw [hs, he, hm]
  · intro hn
    exact hs0 (by rw [hcols]; exact hn)
  · intro hn
    exact he0 (by rw [hcols]; exact hn)
  · intro hn
    exact hm0 (by rw [hcols]; exact hn)

/-- Witness for C9 on a small canonical collection (string stage, numeric
amount, timestamp date, plus an absent stage): `update_views` succeeds. -/
theorem claim_C9_total_witness :
    ∃ dv, update_views
      (some [[("etapa", .jval (.jstr "won")), ("valor", .num ⟨10, 0⟩),
              ("created_at", .ts ⟨2024, 1, 5, 0, 0, 0, none⟩)],
             [("etapa", .nan)]]) ["won"] [] = .ok dv := by
  obtain ⟨dv, h, -, -, -⟩ := claim_C9_total
    [[("etapa", .jval (.jstr "won")), ("valor", .num ⟨10, 0⟩),
      ("created_at", .ts ⟨2024, 1, 5, 0, 0, 0, none⟩)],
     [("etapa", .nan)]] ["won"] [] (by decide)
  exact ⟨dv, h⟩

lemma colIdxs_mem {cols : List String} {c : String} {i : Nat} :
    i ∈ colIdxs cols c ↔ cols.get? i = some c := by
  unfold colIdxs
  rw [List.mem_filter, List.mem_range]
  constructor
  · rintro ⟨-, h2⟩
    exact eq_of_beq h2
  · intro h
    refine ⟨?_, beq_iff_eq.mpr h⟩
    obtain ⟨hl, -⟩ := List.get?_eq_some.mp h
    exact hl

lemma mem_selectCols_cols {df : DataFrame} {keep : List String} {c : String} :
    c ∈ (selectCols df keep).cols ↔ c ∈ keep ∧ c ∈ df.cols := by
  unfold selectCols selIdx
  rw [List.mem_map]
  constructor
  · rintro ⟨⟨c', i⟩, hp, rfl⟩
    obtain ⟨k, hk, hmem⟩ := List.mem_flatMap.mp hp
    obtain ⟨j, hj, hji⟩ := List.mem_map.mp hmem
    obtain ⟨he1, he2⟩ := Prod.mk.injEq .. ▸ hji
    subst he1
    subst he2
    exact ⟨hk, List.get?_mem (colIdxs_mem.mp hj)⟩
  · rintro ⟨hk, hc⟩
    obtain ⟨i, hi⟩ := List.mem_iff_get?.mp hc
    exact ⟨(c, i), List.mem_flatMap.mpr ⟨c, hk,
      List.mem_map.mpr ⟨i, colIdxs_mem.mpr hi, rfl⟩⟩, rfl⟩

lemma convertOneDate_ok_cols {df d : DataFrame} {col : String}
    (h : convertOneDate df col = .ok d) : d.cols = df.cols := by
  unfold convertOneDate at h
  by_cases h1 : df.cols.contains col = true
  · rw [if_pos h1] at h
    by_cases h2 : (df.cols.count col == 1) = true
    · rw [if_pos h2] at h
      by_cases h3 : tzConsistent (colCells df col) = true
      · rw [if_pos h3] at h
        injection h with h
        subst h
        rfl
      · rw [if_neg h3] at h
        exact absurd h (by simp)
    · rw [if_neg h2] at h
      exact absurd h (by simp)
  · rw [if_neg h1] at h
    injection h with h
    subst h
    rfl

lemma convertDates_ok_cols {df d : DataFrame} (h : convertDates df = .ok d) :
    d.cols = df.cols := by
  unfold convertDates at h
  split at h
  next e heq => exact absurd h (by simp)
  next d1 heq =>
    split at h
    next e heq2 => exact absurd h (by simp)
    next d2 heq2 =>
      calc d.cols = d2.cols := convertOneDate_ok_cols h
        _ = d1.cols := convertOneDate_ok_cols heq2
        _ = df.cols := convertOneDate_ok_cols heq

lemma coerceValor_ok_cols {df d : DataFrame} (h : coerceValor df = .ok d) :
    d.cols = df.cols := by
  unfold coerceValor at h
  by_cases h1 : df.cols.contains "valor" = true
  · rw [if_pos h1] at h
    by_cases h2 : (df.cols.count "valor" == 1) = true
    · rw [if_pos h2] at h
      injection h with h
      subst h
      rfl
    · rw [if_neg h2] at h
      exact absurd h (by simp)
  · rw [if_neg h1] at h
    injection h with h
    subst h
    rfl

/-- Counterexample to C2 as stated: a non-empty raw input in which no
canonical column resolves keeps its non-canonical columns — `load_data` on
`[{"foo": 1}]` returns a frame whose only column is the non-canonical
`foo`. -/
theorem claim_C2_cex :
    load_data [[("foo", jint 1)]] = .ok ⟨["foo"], [[.jval (jint 1)]]⟩ ∧
    "foo" ∉ displayCols :=
  ⟨rfl, by decide⟩

/-- C2 (amended): when at least one canonical display column is present
after the rename, the output schema is exactly the canonical display
columns present (those with a resolvable or literal source); when none is
present, `load_data` returns the renamed frame unchanged, non-canonical
columns included. -/
theorem claim_C2_amended (deals : List (List (String × JVal))) (df : DataFrame)
    (h : load_data deals = .ok df) (c : String) :
    c ∈ df.cols ↔
      (if displayCols.any (fun d => (renamedFrame deals).cols.contains d)
       then c ∈ displayCols ∧ c ∈ (renamedFrame deals).cols
       else c ∈ (renamedFrame deals).cols) := by
  unfold load_data at h
  by_cases hemp : deals.isEmpty = true
  · rw [if_pos hemp] at h
    injection h with h
    subst h
    have hnil : deals = [] := List.isEmpty_iff.mp hemp
    subst hnil
    have hrc : (renamedFrame []).cols = [] := rfl
    rw [hrc]
    simp
  · rw [if_neg hemp] at h
    split at h
    next e heq => exact absurd h (by simp)
    next df2 heq =>
      split at h
      next e heq2 => exact absurd h (by simp)
      next df3 heq2 =>
        injection h with h
        subst h
        have hc3 : df3.cols = (renamedFrame deals).cols :=
          (coerceValor_ok_cols heq2).trans (convertDates_ok_cols heq)
        by_cases hk : (displayCols.filter (fun c => df3.cols.contains c)).isEmpty = true
        · rw [if_pos hk]
          have hnone : displayCols.any (fun d => (renamedFrame deals).cols.contains d)
              = false := by
            rw [← hc3]
            have hfe := List.isEmpty_iff.mp hk
            rw [List.filter_eq_nil_iff] at hfe
            cases hx : displayCols.any (fun d => df3.cols.contains d)
            · rfl
            · obtain ⟨d, hd, hdc⟩ := List.any_eq_true.mp hx
              exact absurd hdc (hfe d hd)
          rw [if_neg (by rw [hnone]; exact Bool.false_ne_true), hc3]
        · rw [if_neg hk]
          have hsome : displayCols.any (fun d => (renamedFrame deals).cols.contains d)
              = true := by
            rw [← hc3]
            rcases hfe : displayCols.filter (fun c => df3.cols.contains c) with - | ⟨d, ds⟩
            · rw [hfe] at hk
              exact absurd rfl hk
            · have hd : d ∈ displayCols.filter (fun c => df3.cols.contains c) := by
                rw [hfe]
                exact List.mem_cons_self _ _
              have hdm := List.mem_filter.mp hd
              exact List.any_eq_true.mpr ⟨d, hdm.1, hdm.2⟩
          rw [if_pos (by rw [hsome] : displayCols.any
            (fun d => (renamedFrame deals).cols.contains d) = true)]
          rw [mem_selectCols_cols, List.mem_filter]
          constructor
          · rintro ⟨⟨hd, -⟩, hc⟩
            exact ⟨hd, by rw [← hc3]; exact hc⟩
          · rintro ⟨hd, hc⟩
            have hc' : c ∈ df3.cols := by rw [hc3]; exact hc
            exact ⟨⟨hd, List.elem_iff.mpr hc'⟩, hc'⟩

/-- Witness for C2 (amended): on `[{"stage": "won", "foo": 1}]` the output
keeps the resolved canonical column `etapa` and drops the non-canonical
`foo`. -/
theorem claim_C2_amended_witness :
    ∃ df, load_data [[("stage", .jstr "won"), ("foo", jint 1)]] = .ok df ∧
      "etapa" ∈ df.cols ∧ "foo" ∉ df.cols := by
  refine ⟨_, rfl, ?_, ?_⟩
  · exact (claim_C2_amended [[("stage", .jstr "won"), ("foo", jint 1)]] _ rfl "etapa").mpr
      (by decide)
  · intro hmem
    have hthis := (claim_C2_amended [[("stage", .jstr "won"), ("foo", jint 1)]] _ rfl
      "foo").mp hmem
    exact absurd hthis (by decide)

/-- The three timestamp columns of the canonical schema. -/
def dateColNames : List String := ["closed_at", "prediction_date", "created_at"]

/-- A cell a date column may hold: absent, or a timezone-naive
timestamp. -/
def dateCellOK (cell : Cell) : Prop :=
  cell = .nan ∨ ∃ t, cell = .ts t ∧ t.tz = none

/-- Every cell of every `col`-named column of `df` is absent or a naive
timestamp. -/
def NaiveAt (df : DataFrame) (col : String) : Prop :=
  ∀ r ∈ df.rows, ∀ i, df.cols.get? i = some col → dateCellOK (r.getD i .nan)

lemma dateCellOK_nan : dateCellOK .nan := Or.inl rfl

lemma dateCellOK_conv (c : Cell) : dateCellOK (stripTzCell (toDatetimeCell c)) := by
  cases c with
  | nan => exact Or.inl rfl
  | num q => exact Or.inl rfl
  | ts t => exact Or.inr ⟨{ t with tz := none }, rfl, rfl⟩
  | jval v =>
    cases v with
    | jstr s =>
      cases hp : parseTimestamp s with
      | none => simp [toDatetimeCell, stripTzCell, hp, dateCellOK]
      | some t =>
        simp only [toDatetimeCell, hp, stripTzCell]
        exact Or.inr ⟨{ t with tz := none }, rfl, rfl⟩
    | jnull => exact Or.inl rfl
    | jbool b => exact Or.inl rfl
    | jnum q => exact Or.inl rfl
    | jlist xs => exact Or.inl rfl
    | jobj fs => exact Or.inl rfl

lemma zip_getD_some {g : String → Cell → Cell} {cols : List String} {r : List Cell}
    {i : Nat} {c : String} {cell : Cell}
    (hc : cols.get? i = some c) (hr : r.get? i = some cell) :
    (List.zipWith g cols r).getD i .nan = g c cell := by
  rw [List.getD_eq_get?, List.get?_zipWith, hc, hr]
  rfl

lemma zip_getD_none {g : String → Cell → Cell} {cols : List String} {r : List Cell}
    {i : Nat} (hr : r.get? i = none) :
    (List.zipWith g cols r).getD i .nan = .nan := by
  rw [List.getD_eq_get?, List.get?_zipWith, hr]
  cases cols.get? i <;> rfl

lemma NaiveAt_mapColAll {df : DataFrame} {col col2 : String} {f : Cell → Cell}
    (hf : col = col2 → ∀ cell, dateCellOK (f cell)) (hn : NaiveAt df col) :
    NaiveAt (mapColAll df col2 f) col := by
  intro r hr i hi
  obtain ⟨r0, hr0, rfl⟩ := List.mem_map.mp hr
  have hi2 : df.cols.get? i = some col := hi
  cases hri : r0.get? i with
  | none =>
    rw [zip_getD_none hri]
    exact dateCellOK_nan
  | some cell =>
    rw [zip_getD_some hi2 hri]
    show dateCellOK (if col = col2 then f cell else cell)
    by_cases hcc : col = col2
    · rw [if_pos hcc]
      exact hf hcc cell
    · rw [if_neg hcc]
      have hprev := hn r0 hr0 i hi
      rw [List.getD_eq_get?, hri] at hprev
      exact hprev

lemma NaiveAt_convertOneDate_self {df d : DataFrame} {col : String}
    (h : convertOneDate df col = .ok d) : NaiveAt d col := by
  unfold convertOneDate at h
  by_cases h1 : df.cols.contains col = true
  · rw [if_pos h1] at h
    by_cases h2 : (df.cols.count col == 1) = true
    · rw [if_pos h2] at h
      by_cases h3 : tzConsistent (colCells df col) = true
      · rw [if_pos h3] at h
        injection h with h
        subst h
        intro r hr i hi
        obtain ⟨r0, hr0, rfl⟩ := List.mem_map.mp hr
        have hi2 : df.cols.get? i = some col := hi
        cases hri : r0.get? i with
        | none =>
          rw [zip_getD_none hri]
          exact dateCellOK_nan
        | some cell =>
          rw [zip_getD_some hi2 hri]
          show dateCellOK (if col = col then stripTzCell (toDatetimeCell cell) else cell)
          rw [if_pos rfl]
          exact dateCellOK_conv cell
      · rw [if_neg h3] at h
        exact absurd h (by simp)
    · rw [if_neg h2] at h
      exact absurd h (by simp)
  · rw [if_neg h1] at h
    injection h with h
    subst h
    intro r hr i hi
    exact absurd (List.elem_iff.mpr (List.get?_mem hi)) h1

lemma NaiveAt_convertOneDate_keep {df d : DataFrame} {col col2 : String}
    (h : convertOneDate df col2 = .ok d) (hn : NaiveAt df col) : NaiveAt d col := by
  unfold convertOneDate at h
  by_cases h1 : df.cols.contains col2 = true
  · rw [if_pos h1] at h
    by_cases h2 : (df.cols.count col2 == 1) = true
    · rw [if_pos h2] at h
      by_cases h3 : tzConsistent (colCells df col2) = true
      · rw [if_pos h3] at h
        injection h with h
        subst h
        exact NaiveAt_mapColAll (fun _ cell => dateCellOK_conv cell) hn
      · rw [if_neg h3] at h
        exact absurd h (by simp)
    · rw [if_neg h2] at h
      exact absurd h (by simp)
  · rw [if_neg h1] at h
    injection h with h
    subst h
    exact hn

lemma NaiveAt_coerceValor {df d : DataFrame} {col : String}
    (h : coerceValor df = .ok d) (hcol : col ≠ "valor") (hn : NaiveAt df col) :
    NaiveAt d col := by
  unfold coerceValor at h
  by_cases h1 : df.cols.contains "valor" = true
  · rw [if_pos h1] at h
    by_cases h2 : (df.cols.count "valor" == 1) = true
    · rw [if_pos h2] at h
      injection h with h
      subst h
      exact NaiveAt_mapColAll (fun hcc _ => absurd hcc hcol) hn
    · rw [if_neg h2] at h
      exact absurd h (by simp)
  · rw [if_neg h1] at h
    injection h with h
    subst h
    exact hn

lemma NaiveAt_convertDates {df d : DataFrame} (h : convertDates df = .ok d) :
    ∀ col ∈ dateColNames, NaiveAt d col := by
  unfold convertDates at h
  split at h
  next e heq => exact absurd h (by simp)
  next d1 heq =>
    split at h
    next e heq2 => exact absurd h (by simp)
    next d2 heq2 =>
      intro col hcol
      simp only [dateColNames, List.mem_cons, List.mem_singleton] at hcol
      rcases hcol with rfl | rfl | (rfl | hfalse)
      · exact NaiveAt_convertOneDate_keep h
          (NaiveAt_convertOneDate_keep heq2 (NaiveAt_convertOneDate_self heq))
      · exact NaiveAt_convertOneDate_keep h (NaiveAt_convertOneDate_self heq2)
      · exact NaiveAt_convertOneDate_self h
      · exact absurd hfalse (by simp)

/-- Column selection preserves any cell-level invariant of the columns
named `col`: the selected cells are drawn from equally-named source
columns. -/
lemma selectCols_cellProp {P : Cell → Prop} {df : DataFrame} {keep : List String}
    {col : String}
    (hn : ∀ r ∈ df.rows, ∀ i, df.cols.get? i = some col → P (r.getD i .nan)) :
    ∀ r ∈ (selectCols df keep).rows, ∀ i,
      (selectCols df keep).cols.get? i = some col → P (r.getD i .nan) := by
  intro r hr i hi
  obtain ⟨r0, hr0, rfl⟩ := List.mem_map.mp hr
  have hi' : ((selIdx df.cols keep).map Prod.fst).get? i = some col := hi
  rw [List.get?_map] at hi'
  cases hp : (selIdx df.cols keep).get? i with
  | none =>
    rw [hp] at hi'
    exact absurd hi' (by simp)
  | some p =>
    rw [hp] at hi'
    have hp1 : p.1 = col := by
      rw [Option.map_some'] at hi'
      exact Option.some.inj hi'
    rw [List.getD_eq_get?, List.get?_map, hp]
    show P (r0.getD p.2 .nan)
    have hpm : p ∈ selIdx df.cols keep := List.get?_mem hp
    obtain ⟨k, hk, hmem⟩ := List.mem_flatMap.mp hpm
    obtain ⟨j, hj, hji⟩ := List.mem_map.mp hmem
    have hj2 : df.cols.get? j = some k := colIdxs_mem.mp hj
    have hpj : p.2 = j := by rw [← hji]
    have hpk : p.1 = k := by rw [← hji]
    rw [hpj]
    rw [hpk] at hp1
    subst hp1
    exact hn r0 hr0 j hj2

lemma convertOneDate_error {df : DataFrame} {col e : String}
    (h : convertOneDate df col = .error e) : e = dupDateMsg ∨ e = mixedTzMsg := by
  unfold convertOneDate at h
  by_cases h1 : df.cols.contains col = true
  · rw [if_pos h1] at h
    by_cases h2 : (df.cols.count col == 1) = true
    · rw [if_pos h2] at h
      by_cases h3 : tzConsistent (colCells df col) = true
      · rw [if_pos h3] at h
        exact absurd h (by simp)
      · rw [if_neg h3] at h
        injection h with h
        exact Or.inr h.symm
    · rw [if_neg h2] at h
      injection h with h
      exact Or.inl h.symm
  · rw [if_neg h1] at h
    exact absurd h (by simp)

lemma convertDates_error {df : DataFrame} {e : String} (h : convertDates df = .error e) :
    e = dupDateMsg ∨ e = mixedTzMsg := by
  unfold convertDates at h
  split at h
  next e1 heq =>
    injection h with h
    subst h
    exact convertOneDate_error heq
  next d1 heq =>
    split at h
    next e1 heq2 =>
      injection h with h
      subst h
      exact convertOneDate_error heq2
    next d2 heq2 => exact convertOneDate_error h

lemma coerceValor_error {df : DataFrame} {e : String} (h : coerceValor df = .error e) :
    e = dupValorMsg := by
  unfold coerceValor at h
  by_cases h1 : df.cols.contains "valor" = true
  · rw [if_pos h1] at h
    by_cases h2 : (df.cols.count "valor" == 1) = true
    · rw [if_pos h2] at h
      exact absurd h (by simp)
    · rw [if_neg h2] at h
      injection h with h
      exact h.symm
  · rw [if_neg h1] at h
    exact absurd h (by simp)

lemma convertOneDate_ok_len {df d : DataFrame} {col : String}
    (h : convertOneDate df col = .ok d) : d.rows.length = df.rows.length := by
  unfold convertOneDate at h
  by_cases h1 : df.cols.contains col = true
  · rw [if_pos h1] at h
    by_cases h2 : (df.cols.count col == 1) = true
    · rw [if_pos h2] at h
      by_cases h3 : tzConsistent (colCells df col) = true
      · rw [if_pos h3] at h
        injection h with h
        subst h
        exact List.length_map _ _
      · rw [if_neg h3] at h
        exact absurd h (by simp)
    · rw [if_neg h2] at h
      exact absurd h (by simp)
  · rw [if_neg h1] at h
    injection h with h
    subst h
    rfl

lemma convertDates_ok_len {df d : DataFrame} (h : convertDates df = .ok d) :
    d.rows.length = df.rows.length := by
  unfold convertDates at h
  split at h
  next e heq => exact absurd h (by simp)
  next d1 heq =>
    split at h
    next e heq2 => exact absurd h (by simp)
    next d2 heq2 =>
      calc d.rows.length = d2.rows.length := convertOneDate_ok_len h
        _ = d1.rows.length := convertOneDate_ok_len heq2
        _ = df.rows.length := convertOneDate_ok_len heq

lemma coerceValor_ok_len {df d : DataFrame} (h : coerceValor df = .ok d) :
    d.rows.length = df.rows.length := by
  unfold coerceValor at h
  by_cases h1 : df.cols.contains "valor" = true
  · rw [if_pos h1] at h
    by_cases h2 : (df.cols.count "valor" == 1) = true
    · rw [if_pos h2] at h
      injection h with h
      subst h
      exact List.length_map _ _
    · rw [if_neg h2] at h
      exact absurd h (by simp)
  · rw [if_neg h1] at h
    injection h with h
    subst h
    rfl

lemma renamedFrame_len (deals : List (List (String × JVal))) :
    (renamedFrame deals).rows.length = deals.length := by
  show ((deals.map flattenFields).map _).length = deals.length
  rw [List.length_map, List.length_map]

lemma date_ne_valor {col : String} (h : col ∈ dateColNames) : col ≠ "valor" := by
  simp only [dateColNames, List.mem_cons, List.mem_singleton] at h
  rcases h with rfl | rfl | (rfl | hfalse)
  · decide
  · decide
  · decide
  · exact absurd hfalse (by simp)

/-- A cell the canonical amount column may hold: absent, or a number. -/
def amountCellOK (cell : Cell) : Prop :=
  cell = .nan ∨ ∃ q, cell = .num q

lemma amountCellOK_nan : amountCellOK .nan := Or.inl rfl

lemma amountCellOK_conv (c : Cell) : amountCellOK (toNumericCell c) := by
  cases c with
  | nan => exact Or.inl rfl
  | num q => exact Or.inr ⟨q, rfl⟩
  | ts t => exact Or.inl rfl
  | jval v =>
    cases v with
    | jstr s =>
      cases hp : parseDecNum s with
      | none => simp [toNumericCell, hp, amountCellOK]
      | some q =>
        simp only [toNumericCell, hp]
        exact Or.inr ⟨q, rfl⟩
    | jnull => exact Or.inl rfl
    | jbool b => exact Or.inr ⟨if b then ⟨1, 0⟩ else ⟨0, 0⟩, rfl⟩
    | jnum q => exact Or.inr ⟨q, rfl⟩
    | jlist xs => exact Or.inl rfl
    | jobj fs => exact Or.inl rfl

/-- After a successful `coerceValor` every cell of a `valor`-named column
is absent or numeric: `pd.to_numeric(..., errors="coerce")` replaces each
unparseable value with `NaN` cell-wise. -/
lemma amount_coerceValor {df d : DataFrame} (h : coerceValor df = .ok d) :
    ∀ r ∈ d.rows, ∀ i, d.cols.get? i = some "valor" → amountCellOK (r.getD i .nan) := by
  unfold coerceValor at h
  by_cases h1 : df.cols.contains "valor" = true
  · rw [if_pos h1] at h
    by_cases h2 : (df.cols.count "valor" == 1) = true
    · rw [if_pos h2] at h
      injection h with h
      subst h
      intro r hr i hi
      obtain ⟨r0, hr0, rfl⟩ := List.mem_map.mp hr
      have hi2 : df.cols.get? i = some "valor" := hi
      cases hri : r0.get? i with
      | none =>
        rw [zip_getD_none hri]
        exact amountCellOK_nan
      | some cell =>
        rw [zip_getD_some hi2 hri]
        show amountCellOK (if "valor" = "valor" then toNumericCell cell else cell)
        rw [if_pos rfl]
        exact amountCellOK_conv cell
    · rw [if_neg h2] at h
      exact absurd h (by simp)
  · rw [if_neg h1] at h
    injection h with h
    subst h
    intro r hr i hi
    exact absurd (List.elem_iff.mpr (List.get?_mem hi)) h1

/-- C5: a value that fails to parse never aborts normalization —
`load_data` can fail only on structural column problems (a column name
duplicated by the rename, or a date column whose parsed timestamps mix
timezone statuses, leaving an object-dtyped series on which `.dt`
raises), never because an individual date or amount cell is unparseable;
on success every raw record yields exactly one output record, every cell
of the three date columns is either absent or a timezone-naive timestamp
(any parsed offset has been stripped), and every cell of the canonical
amount column is either absent or numeric. -/
theorem claim_C5_dates (deals : List (List (String × JVal))) :
    (∀ e, load_data deals = .error e →
      e = dupDateMsg ∨ e = mixedTzMsg ∨ e = dupValorMsg) ∧
    (∀ df, load_data deals = .ok df →
      df.rows.length = deals.length ∧
      (∀ r ∈ df.rows, ∀ i col, df.cols.get? i = some col → col ∈ dateColNames →
        dateCellOK (r.getD i .nan)) ∧
      (∀ r ∈ df.rows, ∀ i, df.cols.get? i = some "valor" →
        amountCellOK (r.getD i .nan))) := by
  constructor
  · intro e he
    unfold load_data at he
    by_cases hemp : deals.isEmpty = true
    · rw [if_pos hemp] at he
      exact absurd he (by simp)
    · rw [if_neg hemp] at he
      split at he
      next e1 heq =>
        injection he with he
        subst he
        rcases convertDates_error heq with h | h
        · exact Or.inl h
        · exact Or.inr (Or.inl h)
      next df2 heq =>
        split at he
        next e1 heq2 =>
          injection he with he
          subst he
          exact Or.inr (Or.inr (coerceValor_error heq2))
        next df3 heq2 => exact absurd he (by simp)
  · intro df hdf
    unfold load_data at hdf
    by_cases hemp : deals.isEmpty = true
    · rw [if_pos hemp] at hdf
      injection hdf with hdf
      subst hdf
      refine ⟨?_, ?_, ?_⟩
      · rw [List.isEmpty_iff.mp hemp]
        rfl
      · intro r hr
        exact absurd hr (by simp)
      · intro r hr
        exact absurd hr (by simp)
    · rw [if_neg hemp] at hdf
      split at hdf
      next e heq => exact absurd hdf (by simp)
      next df2 heq =>
        split at hdf
        next e heq2 => exact absurd hdf (by simp)
        next df3 heq2 =>
          injection hdf with hdf
          subst hdf
          have hlen : df3.rows.length = deals.length :=
            (coerceValor_ok_len heq2).trans
              ((convertDates_ok_len heq).trans (renamedFrame_len deals))
          have hnaive : ∀ col ∈ dateColNames, NaiveAt df3 col := fun col hcol =>
            NaiveAt_coerceValor heq2 (date_ne_valor hcol)
              (NaiveAt_convertDates heq col hcol)
          have hamt := amount_coerceValor heq2
          by_cases hk : (displayCols.filter (fun c => df3.cols.contains c)).isEmpty = true
          · rw [if_pos hk]
            exact ⟨hlen, fun r hr i col hi hcol => hnaive col hcol r hr i hi,
              fun r hr i hi => hamt r hr i hi⟩
          · rw [if_neg hk]
            refine ⟨?_,
              fun r hr i col hi hcol => selectCols_cellProp (hnaive col hcol) r hr i hi,
              fun r hr i hi => selectCols_cellProp hamt r hr i hi⟩
            show (df3.rows.map _).length = deals.length
            rw [List.length_map]
            exact hlen

/-- Witness for C5: an unparseable date string and an unparseable amount
string both become absent cells, a timezone-aware date is parsed with its
offset stripped, a numeric amount is kept, and both records survive. -/
theorem claim_C5_dates_witness :
    ∃ df, load_data [[("created_at", .jstr "not-a-date"), ("value", .jstr "proposta")],
        [("created_at", .jstr "2024-03-05T10:00:00+02:00"), ("value", jint 7)]] = .ok df ∧
      df.rows.length = 2 ∧
      df.cols = ["valor", "created_at"] ∧
      df.rows = [[.nan, .nan], [.num ⟨7, 0⟩, .ts ⟨2024, 3, 5, 10, 0, 0, none⟩]] := by
  refine ⟨_, rfl, ?_, rfl, rfl⟩
  exact ((claim_C5_dates [[("created_at", .jstr "not-a-date"), ("value", .jstr "proposta")],
    [("created_at", .jstr "2024-03-05T10:00:00+02:00"), ("value", jint 7)]]).2 _ rfl).1

/-! Concrete evaluations of the embedding, kept as sanity checks. -/

example : extractPage [("deals", .jlist [jint 1, jint 2])] = [jint 1, jint 2] := rfl
example : extractPage [("deals", .jlist []), ("items", .jlist [jint 1])] = [jint 1] := rfl
example : extractPage [("x", jint 3), ("y", .jlist [.jstr "a"])] = [.jstr "a"] := rfl
example : extractPage [("x", jint 3)] = [] := rfl
example :
    fetch_all_deals
      [[("deals", .jlist [jint 1]), ("has_more", .jbool true), ("next_page", .jstr "c")],
       [("deals", .jlist [jint 2])]] = [jint 1, jint 2] := rfl
example :
    fetch_all_deals
      [[("deals", .jlist [jint 1]), ("has_more", .jbool true)],
       [("deals", .jlist [jint 2])]] = [jint 1] := rfl
example :
    load_data [[("created_at", .jstr "2024-03-05T10:00:00+02:00")],
      [("created_at", .jstr "2024-03-06T10:00:00")]] = .error mixedTzMsg := rfl
example :
    convertOneDate ⟨["created_at"],
        [[.jval (.jstr "2024-03-05T10:00:00+02:00")],
         [.jval (.jstr "2024-03-06T11:30:00+02:00")]]⟩ "created_at" =
      .ok ⟨["created_at"],
        [[.ts ⟨2024, 3, 5, 10, 0, 0, none⟩], [.ts ⟨2024, 3, 6, 11, 30, 0, none⟩]]⟩ := rfl
